import Mathlib

/-!
Verification of sage/categories/algebra_functor.py.

The module builds, for an algebraic structure S and a base ring R, the
algebra of S over R: the free R-module with basis indexed by S, with
multiplication induced by the operation of S.  Elements of that free
module are embedded here as coefficient functions on the basis, with the
basis set a finite type.  The two functors AlgebraFunctor (fixed ring)
and GroupAlgebraFunctor (fixed group) and the AlgebrasCategory category
bookkeeping are embedded below.
-/

namespace AlgebraFunctorSpec

/-- A basis element of the free module: the coefficient function that is 1
on the given index and 0 elsewhere (CombinatorialFreeModule.monomial). -/
def monomial {G R : Type} [DecidableEq G] [Zero R] [One R] (g : G) : G → R :=
  fun k => if k = g then 1 else 0

/-- Modelled from the spec: CombinatorialFreeModule.sum_of_terms (the
free-module framework the module delegates to is not under src/) builds the
element whose coefficient on each basis index is the sum of the
coefficients of the terms carrying that index. -/
def sum_of_terms {G R : Type} [DecidableEq G] [AddCommMonoid R]
    (terms : List (G × R)) : G → R :=
  fun g => ((terms.filter (fun t => decide (t.1 = g))).map Prod.snd).sum

/-- Modelled from the spec: iterating over an element of the free module
(as the lambda of _apply_functor_to_morphism does with `for (g, c) in x`)
yields its finitely many terms with nonzero coefficient. -/
def monomial_coefficients {G R : Type} [Fintype G] [LinearOrder G] [Zero R]
    [DecidableEq R] (x : G → R) : List (G × R) :=
  ((Finset.univ.filter (fun g => x g ≠ 0)).sort (· ≤ ·)).map (fun g => (g, x g))

/-- Modelled from the spec: the multiplication of the algebra of S over R,
obtained by extending by bilinearity the operation `op` of S: the product
of two elements has, on each basis index k, the sum over all pairs (g, h)
with op g h = k of the products of the coefficients. -/
def algebra_mul {G R : Type} [Fintype G] [DecidableEq G]
    [NonUnitalNonAssocSemiring R] (op : G → G → G) (a b : G → R) : G → R :=
  fun k => ∑ g : G, ∑ h : G, if op g h = k then a g * b h else 0

/-- The structure S attached to a GroupAlgebraFunctor (field `__group`). -/
structure GroupAlgebraFunctor (G : Type) where
  __group : G

/-- GroupAlgebraFunctor.group: return the group associated to the functor. -/
def GroupAlgebraFunctor.group {G : Type} (F : GroupAlgebraFunctor G) : G :=
  F.__group

/-- GroupAlgebraFunctor._apply_functor_to_morphism: the action on elements
of the lifted morphism, `lambda x: codomain.sum_of_terms((g, f(c)) for
(g, c) in x)`.  The domain and codomain free modules appear as the types
of the argument and of the result. -/
def apply_functor_to_morphism {G R R2 : Type} [Fintype G] [LinearOrder G]
    [Zero R] [DecidableEq R] [AddCommMonoid R2]
    (f : R → R2) (x : G → R) : G → R2 :=
  sum_of_terms ((monomial_coefficients x).map (fun t => (t.1, f t.2)))

lemma filter_map_pair {G R2 : Type} [DecidableEq G] (l : List G)
    (c : G → R2) (k : G) :
    ((l.map (fun g => (g, c g))).filter
        (fun t => decide (t.1 = k))).map Prod.snd
      = (l.filter (fun g => decide (g = k))).map c := by
  induction l with
  | nil => simp
  | cons a l ih =>
      by_cases h : a = k
      · subst h
        simp only [List.map_cons, List.filter_cons, decide_eq_true_eq] at *
        simp [ih]
      · simp only [List.map_cons, List.filter_cons, decide_eq_true_eq] at *
        simp [h, ih]

lemma sum_filter_eq_mem {G R2 : Type} [DecidableEq G] [AddCommMonoid R2]
    (l : List G) (hl : l.Nodup) (c : G → R2) (k : G) :
    ((l.filter (fun g => decide (g = k))).map c).sum
      = if k ∈ l then c k else 0 := by
  induction l with
  | nil => simp
  | cons a l ih =>
      rcases List.nodup_cons.mp hl with ⟨hal, hln⟩
      by_cases h : a = k
      · subst h
        have hfil : l.filter (fun g => decide (g = a)) = [] := by
          rw [List.filter_eq_nil_iff]
          intro b hb
          simp only [decide_eq_true_eq]
          intro hba
          exact hal (hba ▸ hb)
        simp [List.filter_cons, hfil]
      · have hmem : (k ∈ l) ↔ (k ∈ a :: l) := by
          constructor
          · exact fun hk => List.mem_cons_of_mem a hk
          · intro hk
            rcases List.mem_cons.mp hk with h1 | h1
            · exact absurd h1.symm h
            · exact h1
        rw [List.filter_cons, if_neg (by simp [h]), ih hln]
        exact if_congr hmem rfl rfl

lemma sum_of_terms_apply {G R R2 : Type} [Fintype G] [LinearOrder G]
    [Zero R] [DecidableEq R] [AddCommMonoid R2]
    (f : R → R2) (x : G → R) (k : G) :
    apply_functor_to_morphism f x k = if x k = 0 then 0 else f (x k) := by
  unfold apply_functor_to_morphism sum_of_terms monomial_coefficients
  rw [List.map_map]
  have hcomp :
      ((fun t : G × R => (t.1, f t.2)) ∘ fun g => (g, x g))
        = fun g => (g, f (x g)) := rfl
  rw [hcomp, filter_map_pair, sum_filter_eq_mem _ (Finset.sort_nodup _ _)]
  by_cases hk : x k = 0
  · have : k ∉ (Finset.univ.filter (fun g => x g ≠ 0)).sort (· ≤ ·) := by
      rw [Finset.mem_sort, Finset.mem_filter]
      intro h
      exact h.2 hk
    simp [this, hk]
  · have : k ∈ (Finset.univ.filter (fun g => x g ≠ 0)).sort (· ≤ ·) := by
      rw [Finset.mem_sort, Finset.mem_filter]
      exact ⟨Finset.mem_univ k, hk⟩
    simp [this, hk]

/-- C2: applying GroupAlgebraFunctor(G) to a morphism of rings f : R → R2
yields the morphism from the group algebra of G over R (the type G → R of
coefficient functions) to the group algebra of G over R2 that sends the
element with coefficients c_g on the basis elements g to the element with
coefficients f(c_g) on the same basis elements g. -/
theorem C2_apply_functor_to_morphism_acts_on_coefficients
    {G R R2 : Type} [Fintype G] [LinearOrder G]
    [Zero R] [DecidableEq R] [AddCommMonoid R2]
    (f : R → R2) (hf0 : f 0 = 0) (x : G → R) :
    apply_functor_to_morphism f x = fun g => f (x g) := by
  funext k
  rw [sum_of_terms_apply]
  by_cases hk : x k = 0
  · simp [hk, hf0]
  · simp [hk]

/-- Witness for C2 at the doubling morphism on ℤ and a concrete element of
the algebra of Bool over ℤ. -/
theorem C2_witness :
    ((fun c : ℤ => c * 2) 0 = 0) ∧
    apply_functor_to_morphism (fun c : ℤ => c * 2)
        (fun b : Bool => if b then 3 else 1)
      = fun g => (fun c : ℤ => c * 2) ((fun b : Bool => if b then 3 else 1) g) :=
  ⟨by norm_num,
   C2_apply_functor_to_morphism_acts_on_coefficients
     (fun c : ℤ => c * 2) (by norm_num) (fun b : Bool => if b then 3 else 1)⟩

/-- C3: the algebra of S over R is the free R-module on the basis S, and
its product sends the basis elements of g and h to the basis element of
op g h, extended bilinearly: it is additive in each argument and
compatible with scalar multiplication. -/
theorem C3_product_induced_by_operation
    {G R : Type} [Fintype G] [DecidableEq G] [Semiring R] (op : G → G → G) :
    (∀ g h : G,
        algebra_mul (R := R) op (monomial g) (monomial h) = monomial (op g h))
    ∧ (∀ a a2 b : G → R,
        algebra_mul op (a + a2) b = algebra_mul op a b + algebra_mul op a2 b)
    ∧ (∀ a b b2 : G → R,
        algebra_mul op a (b + b2) = algebra_mul op a b + algebra_mul op a b2)
    ∧ (∀ (c : R) (a b : G → R),
        algebra_mul op (c • a) b = c • algebra_mul op a b) := by
  refine ⟨?_, ?_, ?_, ?_⟩
  · intro g h
    funext k
    unfold algebra_mul
    rw [Finset.sum_eq_single g ?_ ?_]
    · rw [Finset.sum_eq_single h ?_ ?_]
      · simp [monomial, eq_comm]
      · intro b _ hb
        simp [monomial, hb]
      · intro hg
        exact absurd (Finset.mem_univ h) hg
    · intro b _ hb
      apply Finset.sum_eq_zero
      intro h2 _
      simp [monomial, hb]
    · intro hg
      exact absurd (Finset.mem_univ g) hg
  · intro a a2 b
    funext k
    show _ = algebra_mul op a b k + algebra_mul op a2 b k
    unfold algebra_mul
    rw [← Finset.sum_add_distrib]
    apply Finset.sum_congr rfl
    intro g _
    rw [← Finset.sum_add_distrib]
    apply Finset.sum_congr rfl
    intro h _
    by_cases hc : op g h = k
    · simp [hc, add_mul]
    · simp [hc]
  · intro a b b2
    funext k
    show _ = algebra_mul op a b k + algebra_mul op a b2 k
    unfold algebra_mul
    rw [← Finset.sum_add_distrib]
    apply Finset.sum_congr rfl
    intro g _
    rw [← Finset.sum_add_distrib]
    apply Finset.sum_congr rfl
    intro h _
    by_cases hc : op g h = k
    · simp [hc, mul_add]
    · simp [hc]
  · intro c a b
    funext k
    show _ = c * algebra_mul op a b k
    unfold algebra_mul
    rw [Finset.mul_sum]
    apply Finset.sum_congr rfl
    intro g _
    rw [Finset.mul_sum]
    apply Finset.sum_congr rfl
    intro h _
    by_cases hc : op g h = k
    · simp [hc, mul_assoc]
    · simp [hc]

/-- Which of the two possible structures of S is extended to its algebra. -/
inductive StructChoice
  | multiplicative
  | additive
deriving DecidableEq

/-- Modelled from the spec: the data of a structure S that the algebra
construction inspects (Sets.ParentMethods.algebra is not under src/):
whether S is a multiplicative semigroup, whether it is an additive
semigroup, and the two candidate binary operations. -/
structure SetObj (G : Type) where
  hasMulSemigroup : Bool
  hasAddSemigroup : Bool
  mulOp : G → G → G
  addOp : G → G → G

/-- The algebra of S over R: it records which structure of S was extended
and carries the product obtained by extending that operation bilinearly to
the free module. -/
structure AlgebraOf (G R : Type) where
  choice : StructChoice
  mul : (G → R) → (G → R) → (G → R)

/-- Modelled from the spec: Sets.ParentMethods.algebra (not under src/).
With no category argument it raises a TypeError when S is both an
additive and a multiplicative semigroup, since the construction would be
ambiguous; an explicit category argument selects which structure of S is
extended to the algebra.  Being a pure function, it leaves S and R
unchanged. -/
def SetObj.algebra {G : Type} [Fintype G] [DecidableEq G] (S : SetObj G)
    (R : Type) [NonUnitalNonAssocSemiring R] (category : Option StructChoice) :
    Except String (AlgebraOf G R) :=
  match category with
  | none =>
      if S.hasMulSemigroup && S.hasAddSemigroup then
        Except.error "TypeError: S is both an additive and a multiplicative semigroup; constructing its algebra is ambiguous"
      else if S.hasMulSemigroup then
        Except.ok { choice := StructChoice.multiplicative,
                    mul := algebra_mul S.mulOp }
      else if S.hasAddSemigroup then
        Except.ok { choice := StructChoice.additive,
                    mul := algebra_mul S.addOp }
      else
        Except.error "TypeError: no semigroup structure on S"
  | some StructChoice.multiplicative =>
      Except.ok { choice := StructChoice.multiplicative,
                  mul := algebra_mul S.mulOp }
  | some StructChoice.additive =>
      Except.ok { choice := StructChoice.additive,
                  mul := algebra_mul S.addOp }

/-- AlgebraFunctor: stores the base ring given at construction in the
field _base_ring; the type α models the class of possible arguments. -/
structure AlgebraFunctor (α : Type) where
  _base_ring : α

/-- AlgebraFunctor.__init__: after `assert base_ring in Rings()` the base
ring is stored; the assertion failure is the error branch. -/
def AlgebraFunctor.init {α : Type} (inRings : α → Bool) (base_ring : α) :
    Except String (AlgebraFunctor α) :=
  if inRings base_ring then Except.ok { _base_ring := base_ring }
  else Except.error "AssertionError"

/-- AlgebraFunctor.base_ring: return the base ring for this functor. -/
def AlgebraFunctor.base_ring {α : Type} (F : AlgebraFunctor α) : α :=
  F._base_ring

/-- AlgebraFunctor.__call__: return G.algebra(self._base_ring,
category=category).  The functor's stored base ring appears as the type
R. -/
def AlgebraFunctor.call {G : Type} [Fintype G] [DecidableEq G]
    (R : Type) [NonUnitalNonAssocSemiring R] (S : SetObj G)
    (category : Option StructChoice) : Except String (AlgebraOf G R) :=
  S.algebra R category

/-- GroupAlgebraFunctor._apply_functor: return
self.__group.algebra(base_ring). -/
def GroupAlgebraFunctor.apply_functor {G : Type} [Fintype G] [DecidableEq G]
    (F : GroupAlgebraFunctor (SetObj G)) (R : Type)
    [NonUnitalNonAssocSemiring R] : Except String (AlgebraOf G R) :=
  F.__group.algebra R none

/-- C5: when S is both an additive and a multiplicative semigroup,
constructing its algebra with no category argument fails with the
descriptive TypeError (the construction being pure, S and R are
unchanged), while an explicit category argument selecting one of the two
structures succeeds and extends exactly that structure. -/
theorem C5_ambiguous_construction_raises
    {G : Type} [Fintype G] [DecidableEq G] (S : SetObj G)
    (R : Type) [NonUnitalNonAssocSemiring R]
    (hmul : S.hasMulSemigroup = true) (hadd : S.hasAddSemigroup = true) :
    S.algebra R none = Except.error "TypeError: S is both an additive and a multiplicative semigroup; constructing its algebra is ambiguous"
    ∧ S.algebra R (some StructChoice.multiplicative)
        = Except.ok { choice := StructChoice.multiplicative,
                      mul := algebra_mul S.mulOp }
    ∧ S.algebra R (some StructChoice.additive)
        = Except.ok { choice := StructChoice.additive,
                      mul := algebra_mul S.addOp } := by
  refine ⟨?_, rfl, rfl⟩
  unfold SetObj.algebra
  rw [hmul, hadd]
  rfl

/-- Witness for C5 on the two-element set with both structures. -/
theorem C5_witness :
    ((SetObj.mk true true and xor).algebra ℤ none
        = Except.error "TypeError: S is both an additive and a multiplicative semigroup; constructing its algebra is ambiguous")
    ∧ ((SetObj.mk true true and xor).algebra ℤ (some StructChoice.multiplicative)
        = Except.ok { choice := StructChoice.multiplicative,
                      mul := algebra_mul and })
    ∧ ((SetObj.mk true true and xor).algebra ℤ (some StructChoice.additive)
        = Except.ok { choice := StructChoice.additive,
                      mul := algebra_mul xor }) :=
  C5_ambiguous_construction_raises (SetObj.mk true true and xor) ℤ rfl rfl

/-- C6: AlgebraFunctor(base_ring) asserts that base_ring is a ring; when
it is not, construction fails with the assertion error, and when it is,
construction succeeds and base_ring() returns exactly the ring given. -/
theorem C6_init_requires_ring
    {α : Type} (inRings : α → Bool) (r : α) :
    (inRings r = false →
        AlgebraFunctor.init inRings r = Except.error "AssertionError")
    ∧ (inRings r = true →
        ∃ F : AlgebraFunctor α,
          AlgebraFunctor.init inRings r = Except.ok F
          ∧ F.base_ring = r) := by
  constructor
  · intro h
    unfold AlgebraFunctor.init
    rw [h]
    rfl
  · intro h
    refine ⟨{ _base_ring := r }, ?_, rfl⟩
    unfold AlgebraFunctor.init
    rw [h]
    rfl

/-- Witness for C6 with the identity ring test on Bool, at one failing
and one succeeding argument. -/
theorem C6_witness :
    (AlgebraFunctor.init (fun b : Bool => b) false
        = Except.error "AssertionError")
    ∧ (∃ F : AlgebraFunctor Bool,
        AlgebraFunctor.init (fun b : Bool => b) true = Except.ok F
        ∧ F.base_ring = true) :=
  ⟨(C6_init_requires_ring (fun b : Bool => b) false).1 rfl,
   (C6_init_requires_ring (fun b : Bool => b) true).2 rfl⟩

/-- C7: the two univariate functors agree: for a group S (a structure
with only its multiplicative semigroup structure) and a ring R,
AlgebraFunctor.__call__ with no category argument and
GroupAlgebraFunctor._apply_functor produce the same algebra, both equal
to S.algebra(R), which extends the multiplication of S. -/
theorem C7_functors_agree
    {G : Type} [Fintype G] [DecidableEq G] (S : SetObj G)
    (R : Type) [NonUnitalNonAssocSemiring R]
    (hmul : S.hasMulSemigroup = true) (hadd : S.hasAddSemigroup = false) :
    AlgebraFunctor.call R S none
        = (GroupAlgebraFunctor.mk S).apply_functor R
    ∧ AlgebraFunctor.call R S none = S.algebra R none
    ∧ S.algebra R none
        = Except.ok { choice := StructChoice.multiplicative,
                      mul := algebra_mul S.mulOp } := by
  refine ⟨rfl, rfl, ?_⟩
  unfold SetObj.algebra
  rw [hmul, hadd]
  rfl

/-- Witness for C7 on the two-element group (Bool with xor as its
multiplication) over ℤ. -/
theorem C7_witness :
    (AlgebraFunctor.call ℤ (SetObj.mk true false xor xor) none
        = (GroupAlgebraFunctor.mk (SetObj.mk true false xor xor)).apply_functor ℤ)
    ∧ (AlgebraFunctor.call ℤ (SetObj.mk true false xor xor) none
        = (SetObj.mk true false xor xor).algebra ℤ none)
    ∧ ((SetObj.mk true false xor xor).algebra ℤ none
        = Except.ok { choice := StructChoice.multiplicative,
                      mul := algebra_mul xor }) :=
  C7_functors_agree (SetObj.mk true false xor xor) ℤ rfl rfl

lemma apply_functor_eq_comp {G R R2 : Type} [Fintype G] [LinearOrder G]
    [Zero R] [DecidableEq R] [AddCommMonoid R2]
    (f : R → R2) (hf0 : f 0 = 0) (x : G → R) :
    apply_functor_to_morphism f x = fun k => f (x k) := by
  funext k
  rw [sum_of_terms_apply]
  by_cases hk : x k = 0
  · simp [hk, hf0]
  · simp [hk]

lemma map_finset_sum {β R R2 : Type} [AddCommMonoid R] [AddCommMonoid R2]
    (f : R → R2) (hf0 : f 0 = 0)
    (hfadd : ∀ x y, f (x + y) = f x + f y)
    (s : Finset β) (t : β → R) :
    f (∑ i ∈ s, t i) = ∑ i ∈ s, f (t i) := by
  classical
  induction s using Finset.induction_on with
  | empty => simpa using hf0
  | insert h ih => rw [Finset.sum_insert h, hfadd, ih, Finset.sum_insert h]

/-- C4: the lifting of ring morphisms to group algebra morphisms is
functorial: the lift of a ring morphism f preserves addition,
multiplication and the unit of the group algebra (the basis element of
the unit e of the group), the lift of the identity is the identity, and
the lift of a composite is the composite of the lifts. -/
theorem C4_lift_is_functorial
    {G R R2 R3 : Type} [Fintype G] [LinearOrder G] [DecidableEq G]
    [Semiring R] [DecidableEq R] [Semiring R2] [DecidableEq R2] [Semiring R3]
    (op : G → G → G) (e : G) (f : R → R2) (g2 : R2 → R3)
    (hf0 : f 0 = 0) (hfadd : ∀ x y, f (x + y) = f x + f y)
    (hfmul : ∀ x y, f (x * y) = f x * f y) (hf1 : f 1 = 1)
    (hg0 : g2 0 = 0) :
    (∀ a b : G → R,
        apply_functor_to_morphism f (a + b)
          = apply_functor_to_morphism f a + apply_functor_to_morphism f b)
    ∧ (∀ a b : G → R,
        apply_functor_to_morphism f (algebra_mul op a b)
          = algebra_mul op (apply_functor_to_morphism f a)
              (apply_functor_to_morphism f b))
    ∧ apply_functor_to_morphism f (monomial e) = monomial e
    ∧ (∀ x : G → R, apply_functor_to_morphism (fun c : R => c) x = x)
    ∧ (∀ x : G → R,
        apply_functor_to_morphism (fun c : R => g2 (f c)) x
          = apply_functor_to_morphism g2 (apply_functor_to_morphism f x)) := by
  refine ⟨?_, ?_, ?_, ?_, ?_⟩
  · intro a b
    rw [apply_functor_eq_comp f hf0, apply_functor_eq_comp f hf0,
        apply_functor_eq_comp f hf0]
    funext k
    exact hfadd (a k) (b k)
  · intro a b
    rw [apply_functor_eq_comp f hf0, apply_functor_eq_comp f hf0,
        apply_functor_eq_comp f hf0]
    funext k
    show f (algebra_mul op a b k) = _
    unfold algebra_mul
    rw [map_finset_sum f hf0 hfadd]
    apply Finset.sum_congr rfl
    intro g _
    rw [map_finset_sum f hf0 hfadd]
    apply Finset.sum_congr rfl
    intro h _
    by_cases hc : op g h = k
    · simp [hc, hfmul]
    · simp [hc, hf0]
  · rw [apply_functor_eq_comp f hf0]
    funext k
    unfold monomial
    by_cases hk : k = e
    · simp [hk, hf1]
    · simp [hk, hf0]
  · intro x
    rw [apply_functor_eq_comp (fun c : R => c) rfl]
  · intro x
    rw [apply_functor_eq_comp (fun c : R => g2 (f c))
          (by show g2 (f 0) = 0; rw [hf0, hg0]),
        apply_functor_eq_comp f hf0, apply_functor_eq_comp g2 hg0]

/-- Witness for C4 at the identity morphism on ℤ followed by doubling,
on the two-element group. -/
theorem C4_witness :
    ((fun c : ℤ => c) 0 = 0)
    ∧ ((fun c : ℤ => c * 2) 0 = 0)
    ∧ ((∀ a b : Bool → ℤ,
        apply_functor_to_morphism (fun c : ℤ => c) (a + b)
          = apply_functor_to_morphism (fun c : ℤ => c) a
              + apply_functor_to_morphism (fun c : ℤ => c) b)
    ∧ (∀ a b : Bool → ℤ,
        apply_functor_to_morphism (fun c : ℤ => c) (algebra_mul xor a b)
          = algebra_mul xor
              (apply_functor_to_morphism (fun c : ℤ => c) a)
              (apply_functor_to_morphism (fun c : ℤ => c) b))
    ∧ apply_functor_to_morphism (fun c : ℤ => c) (monomial false)
        = monomial false
    ∧ (∀ x : Bool → ℤ,
        apply_functor_to_morphism (fun c : ℤ => c) x = x)
    ∧ (∀ x : Bool → ℤ,
        apply_functor_to_morphism (fun c : ℤ => (fun d : ℤ => d * 2) ((fun d : ℤ => d) c)) x
          = apply_functor_to_morphism (fun c : ℤ => c * 2)
              (apply_functor_to_morphism (fun c : ℤ => c) x))) :=
  ⟨rfl, by decide,
   C4_lift_is_functorial xor false (fun c : ℤ => c) (fun c : ℤ => c * 2)
     rfl (fun x y => rfl) (fun x y => rfl) rfl (by decide)⟩

/-- Modelled from the spec: the tensor product of two elements of the
free module on G, an element of the free module on the basis G × G (the
tensor framework is not under src/). -/
def tensorElt {G R : Type} [Mul R] (a b : G → R) : G × G → R :=
  fun p => a p.1 * b p.2

/-- self.term(g): the basis element of g with coefficient 1. -/
def term {G R : Type} [DecidableEq G] [Zero R] [One R] (g : G) : G → R :=
  monomial g

/-- AlgebrasCategory.ParentMethods.coproduct_on_basis:
`g = self.term(g); return tensor([g, g])`. -/
def coproduct_on_basis {G R : Type} [DecidableEq G] [Zero R] [One R] [Mul R]
    (g : G) : G × G → R :=
  tensorElt (term g) (term g)

/-- Modelled from the spec: the coproduct of a general element is the
linear extension of coproduct_on_basis. -/
def coproduct {G R : Type} [Fintype G] [DecidableEq G] [NonAssocSemiring R]
    (x : G → R) : G × G → R :=
  fun p => ∑ g : G, x g * coproduct_on_basis g p

/-- C8: every basis element is group-like: coproduct_on_basis g is the
basis element of (g, g) of the free module on G × G, so the coproduct of
an element with coefficients c_g is the sum of the c_g (g ⊗ g), an
element supported on the diagonal. -/
theorem C8_basis_elements_are_group_like
    {G R : Type} [Fintype G] [DecidableEq G] [NonAssocSemiring R] :
    (∀ g : G, coproduct_on_basis (R := R) g = monomial ((g, g) : G × G))
    ∧ (∀ (x : G → R) (a b : G),
        coproduct x (a, b) = if a = b then x a else 0) := by
  constructor
  · intro g
    funext p
    rcases p with ⟨u, v⟩
    simp only [coproduct_on_basis, tensorElt, term, monomial, Prod.mk.injEq]
    by_cases hu : u = g
    · by_cases hv : v = g
      · simp [hu, hv]
      · simp [hu, hv]
    · simp [hu]
  · intro x a b
    unfold coproduct coproduct_on_basis tensorElt term monomial
    by_cases hab : a = b
    · subst hab
      rw [Finset.sum_eq_single a ?_ ?_]
      · simp
      · intro g _ hg
        simp only [mul_ite, mul_one, mul_zero, ite_mul, zero_mul]
        rw [if_neg (fun h => hg h.symm)]
      · intro ha
        exact absurd (Finset.mem_univ a) ha
    · rw [if_neg hab]
      apply Finset.sum_eq_zero
      intro g _
      by_cases hag : a = g
      · subst hag
        simp only [mul_ite, mul_one, mul_zero, ite_mul, zero_mul, if_pos rfl]
        rw [if_neg (fun h => hab h.symm)]
      · simp [hag]

/-- Modelled from the spec: the supported lattice of categories of
structures: sets, multiplicative magmas, unital magmas, semigroups,
monoids and groups, and the additive analogues. -/
inductive BaseCat
  | sets
  | magmas
  | unitalMagmas
  | semigroups
  | monoids
  | groups
  | addMagmas
  | addUnitalMagmas
  | addSemigroups
  | addMonoids
  | addGroups
deriving DecidableEq

/-- Modelled from the spec: the supercategories of each category of the
lattice, each category followed by all the weaker ones down to sets. -/
def superCats : BaseCat → List BaseCat
  | .sets => [.sets]
  | .magmas => [.magmas, .sets]
  | .unitalMagmas => [.unitalMagmas, .magmas, .sets]
  | .semigroups => [.semigroups, .magmas, .sets]
  | .monoids => [.monoids, .semigroups, .unitalMagmas, .magmas, .sets]
  | .groups => [.groups, .monoids, .semigroups, .unitalMagmas, .magmas, .sets]
  | .addMagmas => [.addMagmas, .sets]
  | .addUnitalMagmas => [.addUnitalMagmas, .addMagmas, .sets]
  | .addSemigroups => [.addSemigroups, .addMagmas, .sets]
  | .addMonoids =>
      [.addMonoids, .addSemigroups, .addUnitalMagmas, .addMagmas, .sets]
  | .addGroups =>
      [.addGroups, .addMonoids, .addSemigroups, .addUnitalMagmas,
       .addMagmas, .sets]

/-- Whether the structures of the category are unital. -/
def BaseCat.unital : BaseCat → Bool
  | .unitalMagmas | .monoids | .groups => true
  | .addUnitalMagmas | .addMonoids | .addGroups => true
  | _ => false

/-- Whether the category is one of the two group categories. -/
def BaseCat.isGroup : BaseCat → Bool
  | .groups | .addGroups => true
  | _ => false

/-- Modelled from the spec: the structural data of S that the category
machinery inspects: its category in the lattice and whether it is
commutative and finite. -/
structure StructDesc where
  cat : BaseCat
  commutative : Bool
  finite : Bool

/-- The specialized categories the algebra of a structure can belong to,
over base rings drawn from RingT. -/
inductive AlgCat (RingT : Type)
  | algebrasOf (c : BaseCat) (R : RingT)
  | unitalAlgebras (R : RingT)
  | commutativeAlgebras (R : RingT)
  | hopfAlgebras (R : RingT)
  | finiteDimensionalAlgebras (R : RingT)
  | semisimpleAlgebras (R : RingT)
deriving DecidableEq

/-- Modelled from the spec: the categories of the algebra of S over R.
For every supercategory C of the category of S, the algebra is a
C-algebra over R; the structural properties of S are reflected: unital
structures give unital algebras, commutative structures commutative
algebras, groups Hopf algebras, finite structures finite-dimensional
algebras, and finite groups over a ring satisfying the condition of
Maschke semisimple algebras. -/
def algebraCategories {RingT : Type} (S : StructDesc) (R : RingT)
    (maschke : Bool) : List (AlgCat RingT) :=
  (superCats S.cat).map (fun c => AlgCat.algebrasOf c R)
    ++ (if S.cat.unital then [AlgCat.unitalAlgebras R] else [])
    ++ (if S.commutative then [AlgCat.commutativeAlgebras R] else [])
    ++ (if S.cat.isGroup then [AlgCat.hopfAlgebras R] else [])
    ++ (if S.finite then [AlgCat.finiteDimensionalAlgebras R] else [])
    ++ (if S.finite && S.cat.isGroup && maschke
        then [AlgCat.semisimpleAlgebras R] else [])

/-- C1: if the structure S lies in a category C of the supported lattice
then its algebra over R lies in the category of C-algebras over R, and
the structural properties of S (unital, commutative, group hence Hopf,
finite hence finite-dimensional, Maschke hence semisimple) are reflected
as memberships in the correspondingly specialized algebra categories. -/
theorem C1_algebra_lands_in_specialized_category
    {RingT : Type} (S : StructDesc) (R : RingT) (maschke : Bool)
    (C : BaseCat) (hC : C ∈ superCats S.cat) :
    AlgCat.algebrasOf C R ∈ algebraCategories S R maschke
    ∧ (S.cat.unital = true →
        AlgCat.unitalAlgebras R ∈ algebraCategories S R maschke)
    ∧ (S.commutative = true →
        AlgCat.commutativeAlgebras R ∈ algebraCategories S R maschke)
    ∧ (S.cat.isGroup = true →
        AlgCat.hopfAlgebras R ∈ algebraCategories S R maschke)
    ∧ (S.finite = true →
        AlgCat.finiteDimensionalAlgebras R ∈ algebraCategories S R maschke)
    ∧ (S.finite = true → S.cat.isGroup = true → maschke = true →
        AlgCat.semisimpleAlgebras R ∈ algebraCategories S R maschke) := by
  unfold algebraCategories
  refine ⟨?_, ?_, ?_, ?_, ?_, ?_⟩
  · simp only [List.mem_append, List.mem_map]
    exact Or.inl (Or.inl (Or.inl (Or.inl (Or.inl ⟨C, hC, rfl⟩))))
  · intro h
    simp [h]
  · intro h
    simp [h]
  · intro h
    simp [h]
  · intro h
    simp [h]
  · intro h1 h2 h3
    simp [h1, h2, h3]

/-- Witness for C1: a finite commutative group, viewed in its
supercategory of monoids, over a one-point ring model with the Maschke
condition satisfied. -/
theorem C1_witness :
    (BaseCat.monoids ∈ superCats (StructDesc.mk BaseCat.groups true true).cat)
    ∧ (AlgCat.algebrasOf BaseCat.monoids ()
          ∈ algebraCategories (StructDesc.mk BaseCat.groups true true) () true
      ∧ ((StructDesc.mk BaseCat.groups true true).cat.unital = true →
          AlgCat.unitalAlgebras ()
            ∈ algebraCategories (StructDesc.mk BaseCat.groups true true) () true)
      ∧ ((StructDesc.mk BaseCat.groups true true).commutative = true →
          AlgCat.commutativeAlgebras ()
            ∈ algebraCategories (StructDesc.mk BaseCat.groups true true) () true)
      ∧ ((StructDesc.mk BaseCat.groups true true).cat.isGroup = true →
          AlgCat.hopfAlgebras ()
            ∈ algebraCategories (StructDesc.mk BaseCat.groups true true) () true)
      ∧ ((StructDesc.mk BaseCat.groups true true).finite = true →
          AlgCat.finiteDimensionalAlgebras ()
            ∈ algebraCategories (StructDesc.mk BaseCat.groups true true) () true)
      ∧ ((StructDesc.mk BaseCat.groups true true).finite = true →
          (StructDesc.mk BaseCat.groups true true).cat.isGroup = true →
          true = true →
          AlgCat.semisimpleAlgebras ()
            ∈ algebraCategories (StructDesc.mk BaseCat.groups true true) () true)) :=
  ⟨by decide,
   C1_algebra_lands_in_specialized_category
     (StructDesc.mk BaseCat.groups true true) () true BaseCat.monoids
     (by decide)⟩

/-- The argument __classcall__ receives first: an instance of the base
category class, or a base ring. -/
inductive CatOrRing (BaseC RingT : Type)
  | cat (c : BaseC)
  | ring (r : RingT)

/-- A constructed algebras category: its base category and its base
ring, the latter possibly absent. -/
structure AlgCatObj (BaseC RingT : Type) where
  base_category : BaseC
  base_ring : Option RingT

/-- Modelled from the spec: category_of builds the algebras category of
the given base category over the given base ring (the implementation
lives in covariant_functorial_construction.py, not under src/). -/
def category_of {BaseC RingT : Type} (c : BaseC) (r : RingT) :
    AlgCatObj BaseC RingT :=
  { base_category := c, base_ring := some r }

/-- AlgebrasCategory.__classcall__: when the first argument is an
instance of the base category class, construct directly from (category,
R); otherwise the first argument is the base ring and the result is
category_of(base_category_class(), category). -/
def classcall {BaseC RingT : Type} (base_category_default : BaseC)
    (category : CatOrRing BaseC RingT) (R : Option RingT) :
    AlgCatObj BaseC RingT :=
  match category with
  | .cat c => { base_category := c, base_ring := R }
  | .ring r => category_of base_category_default r

/-- Modelled from the spec: the two-step construction Cat().Algebras(R)
builds the algebras category of Cat() over R through category_of. -/
def Algebras {BaseC RingT : Type} (c : BaseC) (r : RingT) :
    AlgCatObj BaseC RingT :=
  category_of c r

/-- C9: the class-call shorthand agrees with the two-step construction:
calling the category class with an argument that is not an instance of
the base category class (a base ring r) yields the same category object
as constructing the base category and taking its Algebras over r. -/
theorem C9_classcall_shorthand_agrees
    {BaseC RingT : Type} (b : BaseC) (r : RingT) (R0 : Option RingT) :
    classcall b (CatOrRing.ring r) R0 = Algebras b r :=
  rfl

end AlgebraFunctorSpec
